import Mathlib

/-!
Shallow embedding of the hotel/customer/reservation manager found in
`src/6.2` of the repository (files `models.py`, `storage.py`,
`hotel_system.py`).  Python dictionaries flowing through `to_dict` /
`from_dict` are modelled as association lists of JSON-like values; the
persisted state of the manager (the three JSONL collections) is modelled
as a record of three in-memory lists, and every public operation of
`HotelSystem` becomes a pure state transformer.  Printed `ERROR:` lines
are modelled as explicit diagnostic values where a claim depends on them.
-/

/-- JSON-like values appearing in the record dictionaries of the system:
strings, integers, and lists of strings (the `amenities` field).  This is
the subset of JSON that `to_dict` of the three entities produces. -/
inductive Value where
  | str (s : String)
  | int (n : Int)
  | list (xs : List String)
deriving Repr, DecidableEq

/-- Python repr of a list of strings, used by `str()` when applied to a
list value.  Faithful to CPython for elements containing no quote or
escape characters (the only case any claim touches). -/
def pyReprStrList (xs : List String) : String :=
  let sq := String.singleton (Char.ofNat 39)
  "[" ++ String.intercalate ", " (xs.map (fun x => sq ++ x ++ sq)) ++ "]"

/-- Python `str()` coercion on a value: total, as in Python. -/
def Value.pyStr : Value → String
  | .str s => s
  | .int n => toString n
  | .list xs => pyReprStrList xs

/-- Digit-string accumulator for `pyParseInt`. -/
def parseDigitsAux : List Char → Nat → Option Nat
  | [], acc => some acc
  | c :: cs, acc =>
    if c.isDigit then parseDigitsAux cs (acc * 10 + (c.toNat - 48)) else none

/-- Python `int(string)`: strips surrounding whitespace, accepts an
optional sign followed by decimal digits.  (Digit-group underscores,
accepted by CPython, are not modelled; no record in this system carries
them.) -/
def pyParseInt (s : String) : Option Int :=
  match (s.trim).data with
  | [] => none
  | c :: cs =>
    if c = '-' then
      match cs with
      | [] => none
      | _ => (parseDigitsAux cs 0).map (fun n => -(n : Int))
    else if c = '+' then
      match cs with
      | [] => none
      | _ => (parseDigitsAux cs 0).map (fun n => (n : Int))
    else (parseDigitsAux (c :: cs) 0).map (fun n => (n : Int))

/-- Python `int()` coercion on a value: identity on ints, parse on
strings, `TypeError` (failure) on lists. -/
def Value.pyInt? : Value → Option Int
  | .int n => some n
  | .str s => pyParseInt s
  | .list _ => none

/-- Python `list()` coercion on a value: identity on lists, the list of
one-character strings on a string, `TypeError` (failure) on ints. -/
def Value.pyList? : Value → Option (List String)
  | .list xs => some xs
  | .str s => some (s.data.map String.singleton)
  | .int _ => none

/-- A record dictionary: ordered key/value pairs, keys unique in every
dictionary the code builds. -/
abbrev Payload := List (String × Value)

/-- Dictionary lookup `payload[key]` / `payload.get(key)`: first pair with
the key. -/
def Payload.get? (p : Payload) (k : String) : Option Value :=
  (List.find? (fun kv => kv.1 == k) p).map (fun kv => kv.2)

/-- Dictionary lookup with default, `payload.get(key, default)`. -/
def Payload.getD (p : Payload) (k : String) (d : Value) : Value :=
  (p.get? k).getD d

/-- Substring test on character lists: does the second list occur
contiguously inside the first. -/
def listHasSub (needle : List Char) : List Char → Bool
  | [] => needle.isEmpty
  | c :: t => needle.isPrefixOf (c :: t) || listHasSub needle t

/-- Python `needle in hay` on strings: contiguous substring containment. -/
def strContainsSub (hay needle : String) : Bool :=
  listHasSub needle.data hay.data

/-- Python `str.strip()`: removes leading and trailing whitespace.
(Stripping of non-ASCII unicode spaces is not modelled; no claim touches
them.) -/
def pyStrip (s : String) : String :=
  String.mk (((s.data.dropWhile Char.isWhitespace).reverse.dropWhile
    Char.isWhitespace).reverse)

/-- Python `str.lower()`: lowercases every character. -/
def pyLower (s : String) : String :=
  String.mk (s.data.map Char.toLower)

/-- The `Hotel` dataclass of `models.py`. -/
structure Hotel where
  hotel_id : String
  name : String
  location : String
  total_rooms : Int
  available_rooms : Int
  amenities : List String
deriving Repr, DecidableEq

/-- `Hotel.to_dict` of `models.py`. -/
def Hotel.to_dict (h : Hotel) : Payload :=
  [("hotel_id", .str h.hotel_id),
   ("name", .str h.name),
   ("location", .str h.location),
   ("total_rooms", .int h.total_rooms),
   ("available_rooms", .int h.available_rooms),
   ("amenities", .list h.amenities)]

/-- `Hotel.from_dict` of `models.py`: typed field extraction (any
`KeyError` / `TypeError` / `ValueError` yields `None`), then rejection of
negative room counts and of `available_rooms > total_rooms`. -/
def Hotel.from_dict (p : Payload) : Option Hotel :=
  match (p.get? "hotel_id").map Value.pyStr, (p.get? "name").map Value.pyStr,
      (p.get? "location").map Value.pyStr,
      (p.get? "total_rooms").bind Value.pyInt?,
      (p.get? "available_rooms").bind Value.pyInt?,
      Value.pyList? (p.getD "amenities" (.list [])) with
  | some hid, some nm, some loc, some total, some avail, some amen =>
    let h : Hotel := ⟨hid, nm, loc, total, avail, amen⟩
    if h.total_rooms < 0 ∨ h.available_rooms < 0 then none
    else if h.available_rooms > h.total_rooms then none
    else some h
  | _, _, _, _, _, _ => none

/-- The `Customer` dataclass of `models.py`. -/
structure Customer where
  customer_id : String
  full_name : String
  email : String
  phone : String
deriving Repr, DecidableEq

/-- `Customer.to_dict` of `models.py`. -/
def Customer.to_dict (c : Customer) : Payload :=
  [("customer_id", .str c.customer_id),
   ("full_name", .str c.full_name),
   ("email", .str c.email),
   ("phone", .str c.phone)]

/-- `Customer.from_dict` of `models.py`: field extraction, then rejection
when the email lacks a `@` or the stripped full name is empty. -/
def Customer.from_dict (p : Payload) : Option Customer :=
  match (p.get? "customer_id").map Value.pyStr, (p.get? "full_name").map Value.pyStr,
      (p.get? "email").map Value.pyStr, (p.get? "phone").map Value.pyStr with
  | some cid, some nm, some em, some ph =>
    let c : Customer := ⟨cid, nm, em, ph⟩
    if !(strContainsSub c.email "@") || pyStrip c.full_name == "" then none
    else some c
  | _, _, _, _ => none

/-- The `Reservation` dataclass of `models.py`; `status` defaults to
`"active"`. -/
structure Reservation where
  reservation_id : String
  customer_id : String
  hotel_id : String
  room_count : Int
  status : String := "active"
deriving Repr, DecidableEq

/-- `Reservation.to_dict` of `models.py`. -/
def Reservation.to_dict (r : Reservation) : Payload :=
  [("reservation_id", .str r.reservation_id),
   ("customer_id", .str r.customer_id),
   ("hotel_id", .str r.hotel_id),
   ("room_count", .int r.room_count),
   ("status", .str r.status)]

/-- `Reservation.from_dict` of `models.py`: field extraction with
`payload.get("status", "active")` for the status, then rejection of
`room_count <= 0` and of a status outside the two-value enum. -/
def Reservation.from_dict (p : Payload) : Option Reservation :=
  match (p.get? "reservation_id").map Value.pyStr,
      (p.get? "customer_id").map Value.pyStr,
      (p.get? "hotel_id").map Value.pyStr,
      (p.get? "room_count").bind Value.pyInt? with
  | some rid, some cid, some hid, some k =>
    let st := (p.getD "status" (.str "active")).pyStr
    let r : Reservation := ⟨rid, cid, hid, k, st⟩
    if r.room_count ≤ 0 then none
    else if r.status ≠ "active" ∧ r.status ≠ "cancelled" then none
    else some r
  | _, _, _, _ => none

/-- One line of a JSONL collection file, abstracted at the decode level:
it strips to empty, fails `json.loads`, decodes to a non-mapping, or
decodes to a mapping (a record payload). -/
inductive Line where
  | blank
  | malformed
  | nonMapping
  | record (p : Payload)
deriving Repr, DecidableEq

/-- Line-by-line body of `load_jsonl` in `storage.py`: carries the 1-based
line number, skips blank lines silently, skips undecodable and
non-mapping lines with one diagnostic each (modelled as the offending
line number), and collects record payloads in order. -/
def loadLines : Nat → List Line → List Payload × List Nat
  | _, [] => ([], [])
  | n, l :: rest =>
    let tail := loadLines (n + 1) rest
    match l with
    | .blank => tail
    | .malformed => (tail.1, n :: tail.2)
    | .nonMapping => (tail.1, n :: tail.2)
    | .record p => (p :: tail.1, tail.2)

/-- `load_jsonl` of `storage.py`: `none` models an absent file (the
function returns the empty list); otherwise the lines are processed by
`loadLines` starting at line 1.  The result is the record list together
with the line numbers that drew a diagnostic. -/
def load_jsonl : Option (List Line) → List Payload × List Nat
  | none => ([], [])
  | some lines => loadLines 1 lines

/-- Whether a line draws a diagnostic in `load_jsonl` (fails to decode or
decodes to a non-mapping). -/
def Line.isBad : Line → Bool
  | .malformed => true
  | .nonMapping => true
  | _ => false

/-- The payload of a record line, if any. -/
def Line.record? : Line → Option Payload
  | .record p => some p
  | _ => none

/-- The persisted state of `HotelSystem`: the three JSONL collections,
already validated by the `_load_*` helpers.  Each public operation of
`hotel_system.py` loads these, mutates in memory, and re-saves; the pure
model makes every operation a function from state to state. -/
structure SysState where
  hotels : List Hotel
  customers : List Customer
  reservations : List Reservation
deriving Repr, DecidableEq

namespace HotelSystem

/-- Replace the first hotel carrying the given id (Python mutates the
object returned by `next` over the loaded list, i.e. the first match). -/
def updateFirstHotel (hid : String) (f : Hotel → Hotel) : List Hotel → List Hotel
  | [] => []
  | h :: t => if h.hotel_id == hid then f h :: t else h :: updateFirstHotel hid f t

/-- Replace the first reservation carrying the given id (Python mutates
the object found by the lookup loop, i.e. the first match). -/
def updateFirstRes (rid : String) (f : Reservation → Reservation) :
    List Reservation → List Reservation
  | [] => []
  | r :: t =>
    if r.reservation_id == rid then f r :: t else r :: updateFirstRes rid f t

/-- `HotelSystem.create_hotel`: builds the hotel with
`available_rooms = total_rooms` and a generated id (passed in as
`genId`), validates it through `Hotel.from_dict(to_dict)`, and appends it
on success; on failure nothing is written. -/
def create_hotel (s : SysState) (genId nm loc : String) (total_rooms : Int)
    (amenities : List String) : Option Hotel × SysState :=
  let hotel : Hotel := ⟨genId, nm, loc, total_rooms, total_rooms, amenities⟩
  match Hotel.from_dict hotel.to_dict with
  | none => (none, s)
  | some validated => (some validated, { s with hotels := s.hotels ++ [validated] })

/-- `HotelSystem.delete_hotel`: fails when an active reservation
references the id; otherwise removes every hotel with the id and fails
when none was removed. -/
def delete_hotel (s : SysState) (hotel_id : String) : Bool × SysState :=
  if s.reservations.any (fun r => r.hotel_id == hotel_id && r.status == "active") then
    (false, s)
  else
    let remaining := s.hotels.filter (fun h => !(h.hotel_id == hotel_id))
    if remaining.length == s.hotels.length then (false, s)
    else (true, { s with hotels := remaining })

/-- `HotelSystem.create_customer`: builds the customer with a generated id
and validates it through `Customer.from_dict(to_dict)`; appends on
success. -/
def create_customer (s : SysState) (genId full_name email phone : String) :
    Option Customer × SysState :=
  let customer : Customer := ⟨genId, full_name, email, phone⟩
  match Customer.from_dict customer.to_dict with
  | none => (none, s)
  | some validated =>
    (some validated, { s with customers := s.customers ++ [validated] })

/-- `HotelSystem.delete_customer`: fails when an active reservation
references the id; otherwise removes every customer with the id and fails
when none was removed. -/
def delete_customer (s : SysState) (customer_id : String) : Bool × SysState :=
  if s.reservations.any
      (fun r => r.customer_id == customer_id && r.status == "active") then
    (false, s)
  else
    let remaining := s.customers.filter (fun c => !(c.customer_id == customer_id))
    if remaining.length == s.customers.length then (false, s)
    else (true, { s with customers := remaining })

/-- `HotelSystem.create_reservation`: rejects non-positive room counts,
missing customer, missing hotel, and insufficient availability; otherwise
decrements the first matching hotel, validates the new active
reservation, and appends it.  On any failure the persisted state is
untouched (the in-memory decrement of the Python code is only saved on
the success path). -/
def create_reservation (s : SysState) (genId customer_id hotel_id : String)
    (room_count : Int) : Option Reservation × SysState :=
  if room_count ≤ 0 then (none, s)
  else
    match s.customers.find? (fun c => c.customer_id == customer_id) with
    | none => (none, s)
    | some _ =>
      match s.hotels.find? (fun h => h.hotel_id == hotel_id) with
      | none => (none, s)
      | some hotel =>
        if hotel.available_rooms < room_count then (none, s)
        else
          let hotels2 := updateFirstHotel hotel_id
            (fun h => { h with available_rooms := h.available_rooms - room_count })
            s.hotels
          let reservation : Reservation :=
            ⟨genId, customer_id, hotel_id, room_count, "active"⟩
          match Reservation.from_dict reservation.to_dict with
          | none => (none, s)
          | some validated =>
            (some validated,
             { s with hotels := hotels2,
                      reservations := s.reservations ++ [validated] })

/-- `HotelSystem.cancel_reservation`: fails when the id is unknown, the
reservation is already cancelled, or the referenced hotel is missing;
otherwise marks the reservation cancelled and restores the rooms, clamped
to `total_rooms`. -/
def cancel_reservation (s : SysState) (reservation_id : String) :
    Bool × SysState :=
  match s.reservations.find? (fun r => r.reservation_id == reservation_id) with
  | none => (false, s)
  | some target =>
    if target.status == "cancelled" then (false, s)
    else
      match s.hotels.find? (fun h => h.hotel_id == target.hotel_id) with
      | none => (false, s)
      | some _ =>
        let hotels2 := updateFirstHotel target.hotel_id
          (fun h =>
            { h with
              available_rooms := min (h.available_rooms + target.room_count) h.total_rooms })
          s.hotels
        let res2 := updateFirstRes reservation_id
          (fun r => { r with status := "cancelled" }) s.reservations
        (true, { s with hotels := hotels2, reservations := res2 })

/-- Python `strip().lower()` normalisation used by the name search. -/
def strNorm (s : String) : String := pyLower (pyStrip s)

/-- Python dict assignment `d[k] = v`: overwrites in place when the key
exists, otherwise appends preserving insertion order. -/
def dictInsert (d : List (String × String)) (k v : String) :
    List (String × String) :=
  if d.any (fun kv => kv.1 == k) then
    d.map (fun kv => if kv.1 == k then (k, v) else kv)
  else d ++ [(k, v)]

/-- Lookup in a model dict (keys unique by construction). -/
def dictLookup (d : List (String × String)) (k : String) : Option String :=
  (d.find? (fun kv => kv.1 == k)).map (fun kv => kv.2)

/-- The `matching_customer_ids` dict comprehension of
`search_reservations_by_name`: customer id, mapped to full name, for each
customer whose normalised full name contains the normalised query. -/
def buildMatchingDict (customers : List Customer) (normalized : String) :
    List (String × String) :=
  customers.foldl
    (fun d c =>
      if strContainsSub (strNorm c.full_name) normalized then
        dictInsert d c.customer_id c.full_name
      else d) []

/-- Result-accumulation loop of `search_reservations_by_name`: each
reservation whose customer id is in the dict contributes its payload
extended with the `customer_name` annotation. -/
def searchResults (dict : List (String × String)) (rs : List Reservation) :
    List Payload :=
  rs.foldl
    (fun acc r =>
      match dictLookup dict r.customer_id with
      | none => acc
      | some nm => acc ++ [r.to_dict ++ [("customer_name", Value.str nm)]]) []

/-- `HotelSystem.search_reservations_by_name`: returns the annotated
payload list together with the diagnostics printed (empty query, no
matching customer, or no reservation for the matching customers). -/
def search_reservations_by_name (s : SysState) (customer_name : String) :
    List Payload × List String :=
  let normalized := strNorm customer_name
  if normalized == "" then ([], ["ERROR: empty customer name"])
  else
    let dict := buildMatchingDict s.customers normalized
    if dict.isEmpty then ([], ["ERROR: no customer matches the name"])
    else
      let results := searchResults dict s.reservations
      if results.isEmpty then (results, ["ERROR: no reservations for matching customers"])
      else (results, [])

/-- An abstract reservation-level operation on the system state: the two
mutating calls quantified over by the availability invariant. -/
inductive Op where
  | createRes (genId customer_id hotel_id : String) (room_count : Int)
  | cancelRes (reservation_id : String)
deriving Repr, DecidableEq

/-- Apply one operation to the persisted state. -/
def applyOp (s : SysState) : Op → SysState
  | .createRes g c h k => (create_reservation s g c h k).2
  | .cancelRes rid => (cancel_reservation s rid).2

/-- Apply a sequence of reservation operations left to right. -/
def applyOps (s : SysState) (ops : List Op) : SysState := ops.foldl applyOp s

end HotelSystem

/-- The room-count invariant of a hotel record:
`0 ≤ available_rooms ≤ total_rooms`. -/
def hotelOk (h : Hotel) : Prop :=
  0 ≤ h.available_rooms ∧ h.available_rooms ≤ h.total_rooms

instance (h : Hotel) : Decidable (hotelOk h) := by unfold hotelOk; infer_instance

/-- The validity of a reservation record loaded by the system: a positive
room count (what `Reservation.from_dict` guarantees and the availability
arithmetic relies on). -/
def resOk (r : Reservation) : Prop := 0 < r.room_count

instance (r : Reservation) : Decidable (resOk r) := by unfold resOk; infer_instance

/-- A system state whose hotels satisfy the room bound and whose
reservations have positive room counts — exactly what `_load_hotels` and
`_load_reservations` guarantee, since both validate through
`from_dict`. -/
def stateOk (s : SysState) : Prop :=
  (∀ h ∈ s.hotels, hotelOk h) ∧ (∀ r ∈ s.reservations, resOk r)

instance (s : SysState) : Decidable (stateOk s) := by
  unfold stateOk; infer_instance

/-- Serialisation round trip for hotels satisfying the room bound. -/
theorem hotel_roundtrip (h : Hotel) (h1 : 0 ≤ h.available_rooms)
    (h2 : h.available_rooms ≤ h.total_rooms) :
    Hotel.from_dict h.to_dict = some h := by
  have e : Hotel.from_dict h.to_dict =
      (if h.total_rooms < 0 ∨ h.available_rooms < 0 then none
       else if h.available_rooms > h.total_rooms then none else some h) := rfl
  rw [e, if_neg (by omega), if_neg (by omega)]

/-- Serialisation round trip for customers with a valid email and a
non-blank name. -/
theorem customer_roundtrip (c : Customer) (h1 : strContainsSub c.email "@" = true)
    (h2 : pyStrip c.full_name ≠ "") :
    Customer.from_dict c.to_dict = some c := by
  have e : Customer.from_dict c.to_dict =
      (if !(strContainsSub c.email "@") || pyStrip c.full_name == "" then none
       else some c) := rfl
  rw [e, if_neg]
  simp [h1, h2]

/-- Serialisation round trip for reservations with a positive room count
and a status in the two-value enum. -/
theorem res_roundtrip (r : Reservation) (h1 : 0 < r.room_count)
    (h2 : r.status = "active" ∨ r.status = "cancelled") :
    Reservation.from_dict r.to_dict = some r := by
  have e : Reservation.from_dict r.to_dict =
      (if r.room_count ≤ 0 then none
       else if r.status ≠ "active" ∧ r.status ≠ "cancelled" then none else some r) := rfl
  rw [e, if_neg (by omega), if_neg (by tauto)]

/-- Every hotel accepted by `Hotel.from_dict` satisfies the room bound:
violating records are rejected, not clamped. -/
theorem from_dict_hotelOk (p : Payload) (h : Hotel)
    (he : Hotel.from_dict p = some h) : hotelOk h := by
  unfold Hotel.from_dict at he
  split at he
  · dsimp only at he
    split at he
    · exact absurd he (by simp)
    · split at he
      · exact absurd he (by simp)
      · injection he with he
        subst he
        rename_i hneg hover
        constructor <;> dsimp only <;> omega
  · exact absurd he (by simp)

/-- `Hotel.from_dict` rejects — returns `None` on — every payload whose
decoded room fields violate the bound (negative counts or
`available_rooms > total_rooms`); it never clamps them into range. -/
theorem from_dict_rejects_violation (p : Payload) (hid nm loc : String)
    (total avail : Int) (amen : List String)
    (e1 : (p.get? "hotel_id").map Value.pyStr = some hid)
    (e2 : (p.get? "name").map Value.pyStr = some nm)
    (e3 : (p.get? "location").map Value.pyStr = some loc)
    (e4 : (p.get? "total_rooms").bind Value.pyInt? = some total)
    (e5 : (p.get? "available_rooms").bind Value.pyInt? = some avail)
    (e6 : Value.pyList? (p.getD "amenities" (.list [])) = some amen)
    (hviol : avail < 0 ∨ total < 0 ∨ total < avail) :
    Hotel.from_dict p = none := by
  unfold Hotel.from_dict
  rw [e1, e2, e3, e4, e5, e6]
  dsimp only
  by_cases h1 : total < 0 ∨ avail < 0
  · rw [if_pos (by show total < 0 ∨ avail < 0; omega)]
  · rw [if_neg (by show ¬(total < 0 ∨ avail < 0); omega),
      if_pos (by show avail > total; omega)]

/-- Every reservation accepted by `Reservation.from_dict` has a positive
room count and an in-enum status. -/
theorem from_dict_resOk (p : Payload) (r : Reservation)
    (he : Reservation.from_dict p = some r) :
    resOk r ∧ (r.status = "active" ∨ r.status = "cancelled") := by
  unfold Reservation.from_dict at he
  split at he
  · dsimp only at he
    split at he
    · exact absurd he (by simp)
    · split at he
      · exact absurd he (by simp)
      · injection he with he
        subst he
        rename_i hk hst
        refine ⟨by unfold resOk; dsimp only; omega, ?_⟩
        by_cases ha : (Payload.getD p "status" (.str "active")).pyStr = "active"
        · exact Or.inl ha
        · exact Or.inr (by tauto)
  · exact absurd he (by simp)

namespace HotelSystem

/-- Every member of `updateFirstHotel hid f hs` is an untouched member of
`hs` or the image under `f` of the first hotel matching `hid`. -/
theorem mem_updateFirstHotel (hid : String) (f : Hotel → Hotel)
    (hs : List Hotel) (x : Hotel) (hx : x ∈ updateFirstHotel hid f hs) :
    x ∈ hs ∨ ∃ y, List.find? (fun h => h.hotel_id == hid) hs = some y ∧ x = f y := by
  induction hs with
  | nil => simp [updateFirstHotel] at hx
  | cons h t ih =>
    unfold updateFirstHotel at hx
    split at hx
    · rcases List.mem_cons.mp hx with h1 | h1
      · exact Or.inr ⟨h, by rw [List.find?_cons_of_pos _ (by assumption)], h1⟩
      · exact Or.inl (List.mem_cons_of_mem h h1)
    · rcases List.mem_cons.mp hx with h1 | h1
      · exact Or.inl (h1 ▸ List.mem_cons_self h t)
      · rcases ih h1 with h2 | ⟨y, hy, h3⟩
        · exact Or.inl (List.mem_cons_of_mem h h2)
        · refine Or.inr ⟨y, ?_, h3⟩
          rw [List.find?_cons_of_neg _ (by simpa using (by assumption : ¬(h.hotel_id == hid) = true))]
          exact hy

/-- Every member of `updateFirstRes rid f rs` is an untouched member of
`rs` or the image under `f` of the first reservation matching `rid`. -/
theorem mem_updateFirstRes (rid : String) (f : Reservation → Reservation)
    (rs : List Reservation) (x : Reservation)
    (hx : x ∈ updateFirstRes rid f rs) :
    x ∈ rs ∨
      ∃ y, List.find? (fun r => r.reservation_id == rid) rs = some y ∧ x = f y := by
  induction rs with
  | nil => simp [updateFirstRes] at hx
  | cons r t ih =>
    unfold updateFirstRes at hx
    split at hx
    · rcases List.mem_cons.mp hx with h1 | h1
      · exact Or.inr ⟨r, by rw [List.find?_cons_of_pos _ (by assumption)], h1⟩
      · exact Or.inl (List.mem_cons_of_mem r h1)
    · rcases List.mem_cons.mp hx with h1 | h1
      · exact Or.inl (h1 ▸ List.mem_cons_self r t)
      · rcases ih h1 with h2 | ⟨y, hy, h3⟩
        · exact Or.inl (List.mem_cons_of_mem r h2)
        · refine Or.inr ⟨y, ?_, h3⟩
          rw [List.find?_cons_of_neg _
            (by simpa using (by assumption : ¬(r.reservation_id == rid) = true))]
          exact hy

/-- `create_hotel` preserves the state invariant. -/
theorem create_hotel_stateOk (s : SysState) (g nm loc : String) (total : Int)
    (amen : List String) (hok : stateOk s) :
    stateOk (create_hotel s g nm loc total amen).2 := by
  unfold create_hotel
  dsimp only
  split
  · exact hok
  · rename_i validated heq
    constructor
    · intro x hx
      dsimp only at hx
      rcases List.mem_append.mp hx with h3 | h3
      · exact hok.1 x h3
      · have : x = validated := by simpa using h3
        subst this
        exact from_dict_hotelOk _ _ heq
    · intro r hr
      exact hok.2 r hr

/-- `create_reservation` preserves the state invariant. -/
theorem create_reservation_stateOk (s : SysState) (g cid hid : String)
    (k : Int) (hok : stateOk s) :
    stateOk (create_reservation s g cid hid k).2 := by
  unfold create_reservation
  split
  · exact hok
  · split
    · exact hok
    · split
      · exact hok
      · rename_i hotel heq_h
        split
        · exact hok
        · rename_i h2
          dsimp only
          split
          · exact hok
          · rename_i h1 validated heq_r
            constructor
            · intro x hx
              dsimp only at hx
              rcases mem_updateFirstHotel _ _ _ _ hx with h3 | ⟨y, hy, h4⟩
              · exact hok.1 x h3
              · rw [heq_h] at hy
                injection hy with hy
                subst hy
                subst h4
                have hyok := hok.1 hotel (List.mem_of_find?_eq_some heq_h)
                unfold hotelOk at hyok ⊢
                dsimp only
                omega
            · intro r hr
              dsimp only at hr
              rcases List.mem_append.mp hr with h3 | h3
              · exact hok.2 r h3
              · have : r = validated := by simpa using h3
                subst this
                exact (from_dict_resOk _ _ heq_r).1

/-- `cancel_reservation` preserves the state invariant. -/
theorem cancel_reservation_stateOk (s : SysState) (rid : String)
    (hok : stateOk s) : stateOk (cancel_reservation s rid).2 := by
  unfold cancel_reservation
  split
  · exact hok
  · rename_i target heq_t
    split
    · exact hok
    · split
      · exact hok
      · rename_i hotel heq_h
        have htk : resOk target := hok.2 target (List.mem_of_find?_eq_some heq_t)
        constructor
        · intro x hx
          dsimp only at hx
          rcases mem_updateFirstHotel _ _ _ _ hx with h3 | ⟨y, hy, h4⟩
          · exact hok.1 x h3
          · subst h4
            have hyok := hok.1 y (List.mem_of_find?_eq_some hy)
            unfold hotelOk at hyok ⊢
            unfold resOk at htk
            dsimp only
            omega
        · intro r hr
          dsimp only at hr
          rcases mem_updateFirstRes _ _ _ _ hr with h3 | ⟨y, hy, h4⟩
          · exact hok.2 r h3
          · subst h4
            have hyok := hok.2 y (List.mem_of_find?_eq_some hy)
            unfold resOk at hyok ⊢
            dsimp only
            exact hyok

/-- Looking up the updated id after `updateFirstHotel` sees the first
match through `f`, provided `f` keeps the id. -/
theorem find?_updateFirstHotel (hid : String) (f : Hotel → Hotel)
    (hf : ∀ h, (f h).hotel_id = h.hotel_id) (hs : List Hotel) :
    List.find? (fun h => h.hotel_id == hid) (updateFirstHotel hid f hs) =
      (List.find? (fun h => h.hotel_id == hid) hs).map f := by
  induction hs with
  | nil => simp [updateFirstHotel]
  | cons h t ih =>
    unfold updateFirstHotel
    by_cases hh : h.hotel_id == hid
    · simp [hh, List.find?_cons_of_pos, hf]
    · simp only [hh]
      simp only [Bool.false_eq_true, if_false]
      rw [List.find?_cons_of_neg _ (by simpa using hh),
        List.find?_cons_of_neg _ (by simpa using hh), ih]

/-- Two successive first-match updates at the same id compose, provided
the first keeps the id. -/
theorem updateFirstHotel_cons (hid : String) (f : Hotel → Hotel) (h : Hotel)
    (t : List Hotel) :
    updateFirstHotel hid f (h :: t) =
      if h.hotel_id == hid then f h :: t else h :: updateFirstHotel hid f t := rfl

theorem updateFirstHotel_comp (hid : String) (f g : Hotel → Hotel)
    (hf : ∀ h, (f h).hotel_id = h.hotel_id) (hs : List Hotel) :
    updateFirstHotel hid g (updateFirstHotel hid f hs) =
      updateFirstHotel hid (fun h => g (f h)) hs := by
  induction hs with
  | nil => rfl
  | cons h t ih =>
    by_cases hh : (h.hotel_id == hid) = true
    · have hh2 : ((f h).hotel_id == hid) = true := by rw [hf]; exact hh
      simp only [updateFirstHotel_cons, if_pos hh, if_pos hh2]
    · simp only [updateFirstHotel_cons, if_neg hh, ih]

/-- Any sequence of reservation operations preserves the state
invariant. -/
theorem applyOps_stateOk (s : SysState) (ops : List Op) (hok : stateOk s) :
    stateOk (applyOps s ops) := by
  induction ops generalizing s with
  | nil => exact hok
  | cons op t ih =>
    cases op with
    | createRes g c h k => exact ih _ (create_reservation_stateOk s g c h k hok)
    | cancelRes rid => exact ih _ (cancel_reservation_stateOk s rid hok)

/-- Full characterisation of `create_reservation`: success condition,
failure frame, and success effect. -/
theorem create_reservation_spec (s : SysState) (g cid hid : String)
    (k : Int) :
    ((create_reservation s g cid hid k).1.isSome ↔
      (0 < k ∧ (∃ c ∈ s.customers, c.customer_id = cid) ∧
        ∃ h, List.find? (fun h => h.hotel_id == hid) s.hotels = some h ∧
          k ≤ h.available_rooms)) ∧
    ((create_reservation s g cid hid k).1 = none →
      (create_reservation s g cid hid k).2 = s) ∧
    (∀ r, (create_reservation s g cid hid k).1 = some r →
      r = ⟨g, cid, hid, k, "active"⟩ ∧
      (create_reservation s g cid hid k).2 =
        { s with
          hotels := updateFirstHotel hid
            (fun h => { h with available_rooms := h.available_rooms - k })
            s.hotels,
          reservations := s.reservations ++ [⟨g, cid, hid, k, "active"⟩] }) := by
  unfold create_reservation
  by_cases hk : k ≤ 0
  · rw [if_pos hk]
    refine ⟨iff_of_false (by simp) ?_, fun _ => rfl, by simp⟩
    rintro ⟨h1, -, -⟩
    omega
  · rw [if_neg hk]
    cases e1 : List.find? (fun c => c.customer_id == cid) s.customers with
    | none =>
      dsimp only
      refine ⟨iff_of_false (by simp) ?_, fun _ => rfl, by simp⟩
      rintro ⟨-, ⟨c, hc, hceq⟩, -⟩
      have := List.find?_eq_none.mp e1 c hc
      simp [hceq] at this
    | some c0 =>
      dsimp only
      cases e2 : List.find? (fun h => h.hotel_id == hid) s.hotels with
      | none =>
        dsimp only
        refine ⟨iff_of_false (by simp) ?_, fun _ => rfl, by simp⟩
        rintro ⟨-, -, ⟨h, hh, -⟩⟩
        exact absurd hh (by simp)
      | some hotel =>
        dsimp only
        by_cases ha : hotel.available_rooms < k
        · rw [if_pos ha]
          refine ⟨iff_of_false (by simp) ?_, fun _ => rfl, by simp⟩
          rintro ⟨-, -, ⟨h, hh, hge⟩⟩
          injection hh with hh
          subst hh
          omega
        · rw [if_neg ha]
          have hrt : Reservation.from_dict
              (Reservation.to_dict ⟨g, cid, hid, k, "active"⟩) =
              some ⟨g, cid, hid, k, "active"⟩ :=
            res_roundtrip _ (by show 0 < k; omega) (Or.inl rfl)
          rw [hrt]
          refine ⟨?_, by simp, ?_⟩
          · refine iff_of_true (by simp) ?_
            refine ⟨by omega, ⟨c0, List.mem_of_find?_eq_some e1, ?_⟩,
              ⟨hotel, rfl, by omega⟩⟩
            have := List.find?_some e1
            simpa using this
          · intro r hr
            injection hr with hr
            subst hr
            exact ⟨rfl, rfl⟩

/-- Full characterisation of `cancel_reservation`: success clause with
its effect, exact failure condition, and failure frame. -/
theorem cancel_reservation_spec (s : SysState) (rid : String) :
    (∀ t, List.find? (fun r => r.reservation_id == rid) s.reservations = some t →
      t.status ≠ "cancelled" →
      (∃ h, List.find? (fun h => h.hotel_id == t.hotel_id) s.hotels = some h) →
      (cancel_reservation s rid).1 = true ∧
      (cancel_reservation s rid).2 =
        { s with
          hotels := updateFirstHotel t.hotel_id
            (fun h => { h with
              available_rooms :=
                min (h.available_rooms + t.room_count) h.total_rooms })
            s.hotels,
          reservations := updateFirstRes rid
            (fun r => { r with status := "cancelled" }) s.reservations }) ∧
    ((cancel_reservation s rid).1 = false ↔
      (List.find? (fun r => r.reservation_id == rid) s.reservations = none ∨
       ∃ t, List.find? (fun r => r.reservation_id == rid) s.reservations =
          some t ∧
         (t.status = "cancelled" ∨
          List.find? (fun h => h.hotel_id == t.hotel_id) s.hotels = none))) ∧
    ((cancel_reservation s rid).1 = false →
      (cancel_reservation s rid).2 = s) := by
  unfold cancel_reservation
  cases e1 : List.find? (fun r => r.reservation_id == rid) s.reservations with
  | none =>
    dsimp only
    refine ⟨fun t ht => absurd ht (by simp), iff_of_true rfl (Or.inl rfl),
      fun _ => rfl⟩
  | some target =>
    dsimp only
    by_cases hc : (target.status == "cancelled") = true
    · rw [if_pos hc]
      refine ⟨?_, iff_of_true rfl
        (Or.inr ⟨target, rfl, Or.inl (by simpa using hc)⟩), fun _ => rfl⟩
      intro t ht hst _
      injection ht with ht
      subst ht
      exact absurd (by simpa using hc) hst
    · rw [if_neg hc]
      cases e2 : List.find? (fun h => h.hotel_id == target.hotel_id) s.hotels with
      | none =>
        dsimp only
        refine ⟨?_, iff_of_true rfl (Or.inr ⟨target, rfl, Or.inr e2⟩),
          fun _ => rfl⟩
        intro t ht hst hh
        injection ht with ht
        subst ht
        rcases hh with ⟨h, hh⟩
        rw [e2] at hh
        exact absurd hh (by simp)
      | some hotel =>
        dsimp only
        refine ⟨?_, iff_of_false (by simp) ?_, fun h => absurd h (by simp)⟩
        · intro t ht hst _
          injection ht with ht
          subst ht
          exact ⟨rfl, rfl⟩
        · rintro (h1 | ⟨t, ht, h2 | h3⟩)
          · exact absurd h1 (by simp)
          · injection ht with ht
            subst ht
            exact hc (by simpa using h2)
          · injection ht with ht
            subst ht
            rw [e2] at h3
            exact absurd h3 (by simp)

end HotelSystem

/-- C1: every hotel record accepted by the system satisfies
`0 ≤ available_rooms ≤ total_rooms`; a payload whose decoded room fields
violate the bound is rejected by `Hotel.from_dict` (`None`, never a
clamped record) at construction/load time; the bound holds immediately
after `create_hotel`; and it is preserved by every sequence of
`create_reservation` and `cancel_reservation` operations applied to a
valid state. -/
theorem C1_room_bounds :
    (∀ (p : Payload) (h : Hotel), Hotel.from_dict p = some h → hotelOk h) ∧
    (∀ (p : Payload) (hid nm loc : String) (total avail : Int)
        (amen : List String),
      (p.get? "hotel_id").map Value.pyStr = some hid →
      (p.get? "name").map Value.pyStr = some nm →
      (p.get? "location").map Value.pyStr = some loc →
      (p.get? "total_rooms").bind Value.pyInt? = some total →
      (p.get? "available_rooms").bind Value.pyInt? = some avail →
      Value.pyList? (p.getD "amenities" (.list [])) = some amen →
      (avail < 0 ∨ total < 0 ∨ total < avail) →
      Hotel.from_dict p = none) ∧
    (∀ (s : SysState) (g nm loc : String) (total : Int) (amen : List String),
      stateOk s → stateOk (HotelSystem.create_hotel s g nm loc total amen).2) ∧
    (∀ (s : SysState) (ops : List HotelSystem.Op),
      stateOk s → stateOk (HotelSystem.applyOps s ops)) :=
  ⟨from_dict_hotelOk, from_dict_rejects_violation,
   HotelSystem.create_hotel_stateOk, HotelSystem.applyOps_stateOk⟩

/-- Witness for C1: the invariant theorem applied to a concrete state
and a concrete reserve-then-cancel sequence, and the rejection clause
applied to a concrete payload with `available_rooms = 12` exceeding
`total_rooms = 10`. -/
theorem C1_room_bounds_witness :
    stateOk (HotelSystem.applyOps
      ⟨[⟨"H1", "Plaza", "MX", 10, 10, []⟩],
       [⟨"C1", "Ana Diaz", "ana@x.com", "55"⟩], []⟩
      [HotelSystem.Op.createRes "R1" "C1" "H1" 3,
       HotelSystem.Op.cancelRes "R1"]) ∧
    Hotel.from_dict
      [("hotel_id", Value.str "H1"), ("name", Value.str "Plaza"),
       ("location", Value.str "MX"), ("total_rooms", Value.int 10),
       ("available_rooms", Value.int 12), ("amenities", Value.list [])] =
      none :=
  ⟨C1_room_bounds.2.2.2 _ _ (by decide),
   C1_room_bounds.2.1
     [("hotel_id", Value.str "H1"), ("name", Value.str "Plaza"),
      ("location", Value.str "MX"), ("total_rooms", Value.int 10),
      ("available_rooms", Value.int 12), ("amenities", Value.list [])]
     "H1" "Plaza" "MX" 10 12 [] (by decide) (by decide) (by decide)
     (by decide) (by decide) (by decide) (by decide)⟩

/-- C6: `from_dict (to_dict e) = e` for every valid entity: hotels
satisfying the room bound, customers with an email containing `@` and a
non-blank name, reservations with a positive room count and an in-enum
status. -/
theorem C6_roundtrip :
    (∀ h : Hotel, hotelOk h → Hotel.from_dict h.to_dict = some h) ∧
    (∀ c : Customer, strContainsSub c.email "@" = true →
      pyStrip c.full_name ≠ "" → Customer.from_dict c.to_dict = some c) ∧
    (∀ r : Reservation, 0 < r.room_count →
      (r.status = "active" ∨ r.status = "cancelled") →
      Reservation.from_dict r.to_dict = some r) :=
  ⟨fun h hk => hotel_roundtrip h hk.1 hk.2, customer_roundtrip, res_roundtrip⟩

/-- Witness for C6: the round trip evaluated on one concrete valid
entity of each type. -/
theorem C6_roundtrip_witness :
    Hotel.from_dict (Hotel.to_dict ⟨"H1", "Plaza", "MX", 10, 7, ["wifi"]⟩) =
        some ⟨"H1", "Plaza", "MX", 10, 7, ["wifi"]⟩ ∧
    Customer.from_dict
        (Customer.to_dict ⟨"C1", "Roberto Martinez", "rob@x.com", "55"⟩) =
        some ⟨"C1", "Roberto Martinez", "rob@x.com", "55"⟩ ∧
    Reservation.from_dict (Reservation.to_dict ⟨"R1", "C1", "H1", 3, "active"⟩) =
        some ⟨"R1", "C1", "H1", 3, "active"⟩ :=
  ⟨C6_roundtrip.1 _ (by decide),
   C6_roundtrip.2.1 _ (by decide) (by decide),
   C6_roundtrip.2.2 _ (by decide) (by decide)⟩

/-- C3: `create_reservation` succeeds exactly when the room count is
positive, the customer exists, the (first matching) hotel exists and has
at least `room_count` rooms available; on success it decrements that
hotel, appends the new active reservation, and rewrites both collections;
on any failure the persisted state is unchanged. -/
theorem C3_create_reservation_contract (s : SysState) (g cid hid : String)
    (k : Int) :
    ((HotelSystem.create_reservation s g cid hid k).1.isSome ↔
      (0 < k ∧ (∃ c ∈ s.customers, c.customer_id = cid) ∧
        ∃ h, List.find? (fun h => h.hotel_id == hid) s.hotels = some h ∧
          k ≤ h.available_rooms)) ∧
    ((HotelSystem.create_reservation s g cid hid k).1 = none →
      (HotelSystem.create_reservation s g cid hid k).2 = s) ∧
    (∀ r, (HotelSystem.create_reservation s g cid hid k).1 = some r →
      r = ⟨g, cid, hid, k, "active"⟩ ∧
      (HotelSystem.create_reservation s g cid hid k).2 =
        { s with
          hotels := HotelSystem.updateFirstHotel hid
            (fun h => { h with available_rooms := h.available_rooms - k })
            s.hotels,
          reservations := s.reservations ++ [⟨g, cid, hid, k, "active"⟩] }) :=
  HotelSystem.create_reservation_spec s g cid hid k

/-- Witness for C3: the success clause of the contract evaluated at a
concrete state with one hotel, one customer, and a three-room request. -/
theorem C3_create_reservation_contract_witness :
    (⟨"R1", "C1", "H1", 3, "active"⟩ : Reservation) =
        ⟨"R1", "C1", "H1", 3, "active"⟩ ∧
    (HotelSystem.create_reservation
      ⟨[⟨"H1", "Plaza", "MX", 10, 10, []⟩],
       [⟨"C1", "Ana Diaz", "ana@x.com", "55"⟩], []⟩ "R1" "C1" "H1" 3).2 =
      { hotels := HotelSystem.updateFirstHotel "H1"
          (fun h => { h with available_rooms := h.available_rooms - 3 })
          [⟨"H1", "Plaza", "MX", 10, 10, []⟩],
        customers := [⟨"C1", "Ana Diaz", "ana@x.com", "55"⟩],
        reservations := [] ++ [⟨"R1", "C1", "H1", 3, "active"⟩] } :=
  (C3_create_reservation_contract
    ⟨[⟨"H1", "Plaza", "MX", 10, 10, []⟩],
     [⟨"C1", "Ana Diaz", "ana@x.com", "55"⟩], []⟩ "R1" "C1" "H1" 3).2.2
    ⟨"R1", "C1", "H1", 3, "active"⟩ (by decide)

/-- Counterexample to C4 as stated: in this state the reservation `R1`
exists with status `active`, yet `cancel_reservation` fails, because the
referenced hotel is absent from the hotels collection (a third failure
case of the code not listed by the claim). -/
theorem C4_counterexample :
    List.find? (fun r => r.reservation_id == "R1")
        (⟨[], [], [⟨"R1", "C1", "H1", 1, "active"⟩]⟩ : SysState).reservations =
      some ⟨"R1", "C1", "H1", 1, "active"⟩ ∧
    (⟨"R1", "C1", "H1", 1, "active"⟩ : Reservation).status = "active" ∧
    (HotelSystem.cancel_reservation
      ⟨[], [], [⟨"R1", "C1", "H1", 1, "active"⟩]⟩ "R1").1 = false ∧
    (HotelSystem.cancel_reservation
      ⟨[], [], [⟨"R1", "C1", "H1", 1, "active"⟩]⟩ "R1").2 =
      ⟨[], [], [⟨"R1", "C1", "H1", 1, "active"⟩]⟩ := by
  decide

/-- C4 (amended): when the reservation exists, is not cancelled, AND the
referenced hotel exists, `cancel_reservation` succeeds, marking the
reservation cancelled and restoring the rooms clamped at `total_rooms`;
it fails exactly when the id is not found, the reservation is already
cancelled, or the referenced hotel is missing; failure leaves the state
unchanged. -/
theorem C4_cancel_reservation_contract (s : SysState) (rid : String) :
    (∀ t, List.find? (fun r => r.reservation_id == rid) s.reservations =
        some t →
      t.status ≠ "cancelled" →
      (∃ h, List.find? (fun h => h.hotel_id == t.hotel_id) s.hotels = some h) →
      (HotelSystem.cancel_reservation s rid).1 = true ∧
      (HotelSystem.cancel_reservation s rid).2 =
        { s with
          hotels := HotelSystem.updateFirstHotel t.hotel_id
            (fun h => { h with
              available_rooms :=
                min (h.available_rooms + t.room_count) h.total_rooms })
            s.hotels,
          reservations := HotelSystem.updateFirstRes rid
            (fun r => { r with status := "cancelled" }) s.reservations }) ∧
    ((HotelSystem.cancel_reservation s rid).1 = false ↔
      (List.find? (fun r => r.reservation_id == rid) s.reservations = none ∨
       ∃ t, List.find? (fun r => r.reservation_id == rid) s.reservations =
          some t ∧
         (t.status = "cancelled" ∨
          List.find? (fun h => h.hotel_id == t.hotel_id) s.hotels = none))) ∧
    ((HotelSystem.cancel_reservation s rid).1 = false →
      (HotelSystem.cancel_reservation s rid).2 = s) :=
  HotelSystem.cancel_reservation_spec s rid

/-- Witness for C4 (amended): the success clause evaluated at a concrete
state with one active reservation on an existing hotel. -/
theorem C4_cancel_reservation_contract_witness :
    (HotelSystem.cancel_reservation
      ⟨[⟨"H1", "Plaza", "MX", 10, 7, []⟩], [],
       [⟨"R1", "C1", "H1", 3, "active"⟩]⟩ "R1").1 = true ∧
    (HotelSystem.cancel_reservation
      ⟨[⟨"H1", "Plaza", "MX", 10, 7, []⟩], [],
       [⟨"R1", "C1", "H1", 3, "active"⟩]⟩ "R1").2 =
      { hotels := HotelSystem.updateFirstHotel "H1"
          (fun h => { h with
            available_rooms := min (h.available_rooms + 3) h.total_rooms })
          [⟨"H1", "Plaza", "MX", 10, 7, []⟩],
        customers := [],
        reservations := HotelSystem.updateFirstRes "R1"
          (fun r => { r with status := "cancelled" })
          [⟨"R1", "C1", "H1", 3, "active"⟩] } :=
  (C4_cancel_reservation_contract
    ⟨[⟨"H1", "Plaza", "MX", 10, 7, []⟩], [],
     [⟨"R1", "C1", "H1", 3, "active"⟩]⟩ "R1").1
    ⟨"R1", "C1", "H1", 3, "active"⟩ (by decide) (by decide)
    ⟨⟨"H1", "Plaza", "MX", 10, 7, []⟩, by decide⟩

/-- C9: cancelling a reservation whose status is already `cancelled`
fails, and the state — in particular the hotels collection and every
`available_rooms` value in it — is unchanged by the failed call. -/
theorem C9_cancel_cancelled_frame (s : SysState) (rid : String)
    (t : Reservation)
    (ht : List.find? (fun r => r.reservation_id == rid) s.reservations = some t)
    (hc : t.status = "cancelled") :
    (HotelSystem.cancel_reservation s rid).1 = false ∧
    (HotelSystem.cancel_reservation s rid).2 = s ∧
    ((HotelSystem.cancel_reservation s rid).2).hotels = s.hotels := by
  unfold HotelSystem.cancel_reservation
  rw [ht]
  dsimp only
  rw [if_pos (by simp [hc])]
  exact ⟨rfl, rfl, rfl⟩

/-- Witness for C9: a concrete state whose only reservation is already
cancelled. -/
theorem C9_cancel_cancelled_frame_witness :
    (HotelSystem.cancel_reservation
      ⟨[⟨"H1", "Plaza", "MX", 10, 10, []⟩], [],
       [⟨"R1", "C1", "H1", 3, "cancelled"⟩]⟩ "R1").1 = false ∧
    (HotelSystem.cancel_reservation
      ⟨[⟨"H1", "Plaza", "MX", 10, 10, []⟩], [],
       [⟨"R1", "C1", "H1", 3, "cancelled"⟩]⟩ "R1").2 =
      ⟨[⟨"H1", "Plaza", "MX", 10, 10, []⟩], [],
       [⟨"R1", "C1", "H1", 3, "cancelled"⟩]⟩ ∧
    ((HotelSystem.cancel_reservation
      ⟨[⟨"H1", "Plaza", "MX", 10, 10, []⟩], [],
       [⟨"R1", "C1", "H1", 3, "cancelled"⟩]⟩ "R1").2).hotels =
      [⟨"H1", "Plaza", "MX", 10, 10, []⟩] :=
  C9_cancel_cancelled_frame
    ⟨[⟨"H1", "Plaza", "MX", 10, 10, []⟩], [],
     [⟨"R1", "C1", "H1", 3, "cancelled"⟩]⟩ "R1"
    ⟨"R1", "C1", "H1", 3, "cancelled"⟩ (by decide) (by decide)

/-- C5: `delete_hotel` and `delete_customer` fail, leaving the state
unchanged, whenever an active reservation references the id, and succeed
in removing the existing entity when no reservation referencing it is
still active. -/
theorem C5_deletion_guard (s : SysState) (hid cid : String) :
    ((∃ r ∈ s.reservations, r.hotel_id = hid ∧ r.status = "active") →
      HotelSystem.delete_hotel s hid = (false, s)) ∧
    ((∀ r ∈ s.reservations, r.hotel_id = hid → r.status ≠ "active") →
      (∃ h ∈ s.hotels, h.hotel_id = hid) →
      (HotelSystem.delete_hotel s hid).1 = true ∧
      (HotelSystem.delete_hotel s hid).2 =
        { s with hotels := s.hotels.filter (fun h => !(h.hotel_id == hid)) }) ∧
    ((∃ r ∈ s.reservations, r.customer_id = cid ∧ r.status = "active") →
      HotelSystem.delete_customer s cid = (false, s)) ∧
    ((∀ r ∈ s.reservations, r.customer_id = cid → r.status ≠ "active") →
      (∃ c ∈ s.customers, c.customer_id = cid) →
      (HotelSystem.delete_customer s cid).1 = true ∧
      (HotelSystem.delete_customer s cid).2 =
        { s with
          customers := s.customers.filter (fun c => !(c.customer_id == cid)) }) := by
  refine ⟨?_, ?_, ?_, ?_⟩
  · rintro ⟨r, hr, h1, h2⟩
    unfold HotelSystem.delete_hotel
    rw [if_pos (List.any_eq_true.mpr ⟨r, hr, by simp [h1, h2]⟩)]
  · intro hno hex
    unfold HotelSystem.delete_hotel
    rw [if_neg ?_]
    · dsimp only
      rcases hex with ⟨h, hh, he⟩
      have hlt : (s.hotels.filter (fun h => !(h.hotel_id == hid))).length <
          s.hotels.length :=
        List.length_filter_lt_length_iff_exists.mpr ⟨h, hh, by simp [he]⟩
      have hne : ((List.filter (fun h => !(h.hotel_id == hid)) s.hotels).length ==
          s.hotels.length) = false := by
        rw [beq_eq_false_iff_ne]
        omega
      simp only [hne, Bool.false_eq_true, if_false]
      exact ⟨trivial, trivial⟩
    · intro hany
      rcases List.any_eq_true.mp hany with ⟨r, hr, hb⟩
      simp only [Bool.and_eq_true, beq_iff_eq] at hb
      exact hno r hr hb.1 hb.2
  · rintro ⟨r, hr, h1, h2⟩
    unfold HotelSystem.delete_customer
    rw [if_pos (List.any_eq_true.mpr ⟨r, hr, by simp [h1, h2]⟩)]
  · intro hno hex
    unfold HotelSystem.delete_customer
    rw [if_neg ?_]
    · dsimp only
      rcases hex with ⟨c, hc, he⟩
      have hlt : (s.customers.filter (fun c => !(c.customer_id == cid))).length <
          s.customers.length :=
        List.length_filter_lt_length_iff_exists.mpr ⟨c, hc, by simp [he]⟩
      have hne : ((List.filter (fun c => !(c.customer_id == cid)) s.customers).length ==
          s.customers.length) = false := by
        rw [beq_eq_false_iff_ne]
        omega
      simp only [hne, Bool.false_eq_true, if_false]
      exact ⟨trivial, trivial⟩
    · intro hany
      rcases List.any_eq_true.mp hany with ⟨r, hr, hb⟩
      simp only [Bool.and_eq_true, beq_iff_eq] at hb
      exact hno r hr hb.1 hb.2

/-- Witness for C5: the guard clause at a state with an active
reservation, and the success clause after it is cancelled. -/
theorem C5_deletion_guard_witness :
    HotelSystem.delete_hotel
      ⟨[⟨"H1", "Plaza", "MX", 10, 7, []⟩], [],
       [⟨"R1", "C1", "H1", 3, "active"⟩]⟩ "H1" =
      (false, ⟨[⟨"H1", "Plaza", "MX", 10, 7, []⟩], [],
        [⟨"R1", "C1", "H1", 3, "active"⟩]⟩) ∧
    ((HotelSystem.delete_hotel
      ⟨[⟨"H1", "Plaza", "MX", 10, 10, []⟩], [],
       [⟨"R1", "C1", "H1", 3, "cancelled"⟩]⟩ "H1").1 = true ∧
     (HotelSystem.delete_hotel
      ⟨[⟨"H1", "Plaza", "MX", 10, 10, []⟩], [],
       [⟨"R1", "C1", "H1", 3, "cancelled"⟩]⟩ "H1").2 =
      { hotels := List.filter (fun h => !(h.hotel_id == "H1"))
          [⟨"H1", "Plaza", "MX", 10, 10, []⟩],
        customers := [],
        reservations := [⟨"R1", "C1", "H1", 3, "cancelled"⟩] }) :=
  ⟨(C5_deletion_guard
      ⟨[⟨"H1", "Plaza", "MX", 10, 7, []⟩], [],
       [⟨"R1", "C1", "H1", 3, "active"⟩]⟩ "H1" "C1").1
      ⟨⟨"R1", "C1", "H1", 3, "active"⟩, by decide, rfl, rfl⟩,
   (C5_deletion_guard
      ⟨[⟨"H1", "Plaza", "MX", 10, 10, []⟩], [],
       [⟨"R1", "C1", "H1", 3, "cancelled"⟩]⟩ "H1" "C1").2.1
      (by decide) ⟨⟨"H1", "Plaza", "MX", 10, 10, []⟩, by decide, rfl⟩⟩

/-- C2: creating a reservation for `k` rooms on a hotel with availability
`v` and total `T`, then cancelling it, returns the hotel availability to
`min (v - k + k) T`, which equals `v` whenever `v ≤ T` (clamped at `T`).
Hypotheses: the customer exists, the hotel is the first match for its id,
`0 < k ≤ v`, and the generated reservation id is fresh. -/
theorem C2_availability_conservation (s : SysState) (g cid hid : String)
    (k : Int) (hotel : Hotel)
    (hcust : ∃ c ∈ s.customers, c.customer_id = cid)
    (hfind : List.find? (fun h => h.hotel_id == hid) s.hotels = some hotel)
    (hk : 0 < k) (hkv : k ≤ hotel.available_rooms)
    (hfresh : ∀ r ∈ s.reservations, r.reservation_id ≠ g) :
    ∃ h2, List.find? (fun h => h.hotel_id == hid)
        ((HotelSystem.cancel_reservation
          ((HotelSystem.create_reservation s g cid hid k).2) g).2).hotels =
        some h2 ∧
      h2.available_rooms =
        min (hotel.available_rooms - k + k) hotel.total_rooms ∧
      (hotel.available_rooms ≤ hotel.total_rooms →
        h2.available_rooms = hotel.available_rooms) := by
  obtain ⟨hiff, hnone, hsucc⟩ := HotelSystem.create_reservation_spec s g cid hid k
  have hsome : (HotelSystem.create_reservation s g cid hid k).1.isSome :=
    hiff.mpr ⟨hk, hcust, hotel, hfind, hkv⟩
  obtain ⟨r, hr⟩ := Option.isSome_iff_exists.mp hsome
  obtain ⟨hre, hstate⟩ := hsucc r hr
  subst hre
  have hres1 : List.find? (fun r => r.reservation_id == g)
      ((HotelSystem.create_reservation s g cid hid k).2).reservations =
      some ⟨g, cid, hid, k, "active"⟩ := by
    rw [hstate]
    dsimp only
    rw [List.find?_append]
    rw [List.find?_eq_none.mpr (fun x hx => by simp [hfresh x hx])]
    simp [List.find?]
  have hhot1 : List.find? (fun h => h.hotel_id == hid)
      ((HotelSystem.create_reservation s g cid hid k).2).hotels =
      some ({ hotel with available_rooms := hotel.available_rooms - k }) := by
    rw [hstate]
    dsimp only
    rw [HotelSystem.find?_updateFirstHotel hid
      (fun h => { h with available_rooms := h.available_rooms - k })
      (fun h => rfl) s.hotels, hfind]
    rfl
  obtain ⟨hcsucc, -, -⟩ :=
    HotelSystem.cancel_reservation_spec
      ((HotelSystem.create_reservation s g cid hid k).2) g
  obtain ⟨-, hstate2⟩ := hcsucc ⟨g, cid, hid, k, "active"⟩ hres1
    (by show ("active" : String) ≠ "cancelled"; decide)
    ⟨{ hotel with available_rooms := hotel.available_rooms - k }, hhot1⟩
  rw [hstate2]
  dsimp only
  rw [HotelSystem.find?_updateFirstHotel hid
    (fun h => { h with
      available_rooms := min (h.available_rooms + k) h.total_rooms })
    (fun h => rfl), hhot1]
  refine ⟨_, rfl, ?_, ?_⟩
  · rfl
  · intro hvT
    dsimp only
    omega

/-- Witness for C2: reserve three of ten rooms and cancel; availability
returns to ten. -/
theorem C2_availability_conservation_witness :
    ∃ h2, List.find? (fun h => h.hotel_id == "H1")
        ((HotelSystem.cancel_reservation
          ((HotelSystem.create_reservation
            ⟨[⟨"H1", "Plaza", "MX", 10, 10, []⟩],
             [⟨"C1", "Ana Diaz", "ana@x.com", "55"⟩], []⟩
            "R1" "C1" "H1" 3).2) "R1").2).hotels = some h2 ∧
      h2.available_rooms = min (10 - 3 + 3) 10 ∧
      ((10 : Int) ≤ 10 → h2.available_rooms = 10) :=
  C2_availability_conservation
    ⟨[⟨"H1", "Plaza", "MX", 10, 10, []⟩],
     [⟨"C1", "Ana Diaz", "ana@x.com", "55"⟩], []⟩
    "R1" "C1" "H1" 3 ⟨"H1", "Plaza", "MX", 10, 10, []⟩
    ⟨⟨"C1", "Ana Diaz", "ana@x.com", "55"⟩, by decide, rfl⟩
    (by decide) (by decide) (by decide)
    (fun r hr => absurd hr (List.not_mem_nil r))

/-- Index-generalised characterisation of the `loadLines` loop: records
are collected in order and one diagnostic is emitted per bad line. -/
theorem loadLines_spec (n : Nat) (lines : List Line) :
    (loadLines n lines).1 = lines.filterMap Line.record? ∧
    (loadLines n lines).2.length = (lines.filter Line.isBad).length := by
  induction lines generalizing n with
  | nil => exact ⟨rfl, rfl⟩
  | cons l t ih =>
    obtain ⟨ih1, ih2⟩ := ih (n + 1)
    cases l with
    | blank => simpa [loadLines, Line.record?, Line.isBad] using ⟨ih1, ih2⟩
    | malformed => simpa [loadLines, Line.record?, Line.isBad] using ⟨ih1, ih2⟩
    | nonMapping => simpa [loadLines, Line.record?, Line.isBad] using ⟨ih1, ih2⟩
    | record p => simpa [loadLines, Line.record?, Line.isBad] using ⟨ih1, ih2⟩

/-- C7: `load_jsonl` returns the empty sequence for an absent file; on
any file it returns exactly the payloads of the record lines in order,
skipping every line that fails to decode or decodes to a non-mapping
with one diagnostic per such line; being a total function it never fails
on partial corruption. -/
theorem C7_load_jsonl (lines : List Line) :
    load_jsonl none = ([], []) ∧
    (load_jsonl (some lines)).1 = lines.filterMap Line.record? ∧
    (load_jsonl (some lines)).2.length = (lines.filter Line.isBad).length :=
  ⟨rfl, (loadLines_spec 1 lines).1, (loadLines_spec 1 lines).2⟩

/-- C10: `Reservation.from_dict` accepts a mapping that lacks the status
key and yields a reservation with status `active`; and whenever it
rejects a mapping, the reason is a missing or badly typed required
field, a non-positive room count, or a PRESENT status value outside the
enum — never a missing status. -/
theorem C10_status_default (p : Payload) :
    (∀ rid cid hid k,
      (p.get? "reservation_id").map Value.pyStr = some rid →
      (p.get? "customer_id").map Value.pyStr = some cid →
      (p.get? "hotel_id").map Value.pyStr = some hid →
      (p.get? "room_count").bind Value.pyInt? = some k →
      0 < k →
      p.get? "status" = none →
      Reservation.from_dict p = some ⟨rid, cid, hid, k, "active"⟩) ∧
    (Reservation.from_dict p = none →
      ((p.get? "reservation_id").map Value.pyStr = none ∨
       (p.get? "customer_id").map Value.pyStr = none ∨
       (p.get? "hotel_id").map Value.pyStr = none ∨
       (p.get? "room_count").bind Value.pyInt? = none ∨
       (∃ k, (p.get? "room_count").bind Value.pyInt? = some k ∧ k ≤ 0) ∨
       (∃ v, p.get? "status" = some v ∧ v.pyStr ≠ "active" ∧
         v.pyStr ≠ "cancelled"))) := by
  constructor
  · intro rid cid hid k e1 e2 e3 e4 hk est
    unfold Reservation.from_dict
    rw [e1, e2, e3, e4]
    dsimp only
    have hst : Payload.getD p "status" (.str "active") = .str "active" := by
      unfold Payload.getD
      rw [est]
      rfl
    rw [hst]
    rw [if_neg (by show ¬(k ≤ 0); omega)]
    rw [if_neg (by
      show ¬(("active" : String) ≠ "active" ∧ ("active" : String) ≠ "cancelled")
      simp)]
    rfl
  · intro he
    cases e1 : (p.get? "reservation_id").map Value.pyStr with
    | none => exact Or.inl rfl
    | some rid =>
      cases e2 : (p.get? "customer_id").map Value.pyStr with
      | none => exact Or.inr (Or.inl rfl)
      | some cid =>
        cases e3 : (p.get? "hotel_id").map Value.pyStr with
        | none => exact Or.inr (Or.inr (Or.inl rfl))
        | some hid =>
          cases e4 : (p.get? "room_count").bind Value.pyInt? with
          | none => exact Or.inr (Or.inr (Or.inr (Or.inl rfl)))
          | some k =>
            unfold Reservation.from_dict at he
            rw [e1, e2, e3, e4] at he
            dsimp only at he
            split at he
            · rename_i hkle
              exact Or.inr (Or.inr (Or.inr (Or.inr (Or.inl ⟨k, rfl, hkle⟩))))
            · split at he
              · rename_i hnk hsb
                refine Or.inr (Or.inr (Or.inr (Or.inr (Or.inr ?_))))
                cases est : p.get? "status" with
                | none =>
                  have hst : Payload.getD p "status" (.str "active") =
                      .str "active" := by
                    unfold Payload.getD
                    rw [est]
                    rfl
                  rw [hst] at hsb
                  exact absurd rfl hsb.1
                | some v =>
                  have hst : Payload.getD p "status" (.str "active") = v := by
                    unfold Payload.getD
                    rw [est]
                    rfl
                  rw [hst] at hsb
                  exact ⟨v, rfl, hsb.1, hsb.2⟩
              · exact absurd he (by simp)

/-- Witness for C10: a concrete mapping with no status key is accepted
with status `active`. -/
theorem C10_status_default_witness :
    Reservation.from_dict
      [("reservation_id", Value.str "R1"), ("customer_id", Value.str "C1"),
       ("hotel_id", Value.str "H1"), ("room_count", Value.int 2)] =
      some ⟨"R1", "C1", "H1", 2, "active"⟩ :=
  (C10_status_default
    [("reservation_id", Value.str "R1"), ("customer_id", Value.str "C1"),
     ("hotel_id", Value.str "H1"), ("room_count", Value.int 2)]).1
    "R1" "C1" "H1" 2 (by decide) (by decide) (by decide) (by decide)
    (by decide) (by decide)

namespace HotelSystem

/-- Unfolding lemma for `dictLookup` on a cons cell. -/
theorem dictLookup_cons (kv : String × String) (d : List (String × String))
    (k : String) :
    dictLookup (kv :: d) k = if kv.1 == k then some kv.2 else dictLookup d k := by
  by_cases h : (kv.1 == k) = true
  · simp [dictLookup, List.find?_cons, h]
  · simp [dictLookup, List.find?_cons, h]

/-- Inserting a key absent from the dict appends the new pair. -/
theorem dictInsert_of_fresh (d : List (String × String)) (k v : String)
    (hk : ∀ kv ∈ d, kv.1 ≠ k) : dictInsert d k v = d ++ [(k, v)] := by
  unfold dictInsert
  rw [if_neg]
  intro hany
  rcases List.any_eq_true.mp hany with ⟨kv, hkv, hb⟩
  exact hk kv hkv (by simpa using hb)

/-- Every member of `dictInsert d k v` is the new pair or an old member. -/
theorem mem_dictInsert (d : List (String × String)) (k v : String)
    (x : String × String) (hx : x ∈ dictInsert d k v) : x = (k, v) ∨ x ∈ d := by
  unfold dictInsert at hx
  split at hx
  · rcases List.mem_map.mp hx with ⟨p, hp, he⟩
    by_cases hpk : (p.1 == k) = true
    · rw [if_pos hpk] at he
      exact Or.inl he.symm
    · rw [if_neg hpk] at he
      exact Or.inr (he ▸ hp)
  · rcases List.mem_append.mp hx with h1 | h1
    · exact Or.inr h1
    · exact Or.inl (by simpa using h1)

/-- Fold invariant: every entry of the matching dict comes from the
accumulator or from a customer whose normalised name matches. -/
theorem buildMatchingDict_go_mem (nm : String) (cs : List Customer) :
    ∀ (d : List (String × String)) (kv : String × String),
    kv ∈ cs.foldl (fun d c =>
      if strContainsSub (strNorm c.full_name) nm then
        dictInsert d c.customer_id c.full_name
      else d) d →
    kv ∈ d ∨ ∃ c ∈ cs, c.customer_id = kv.1 ∧ c.full_name = kv.2 ∧
      strContainsSub (strNorm c.full_name) nm = true := by
  induction cs with
  | nil => exact fun d kv h => Or.inl h
  | cons c t ih =>
    intro d kv h
    rw [List.foldl_cons] at h
    by_cases hm : strContainsSub (strNorm c.full_name) nm = true
    · rw [if_pos hm] at h
      rcases ih (dictInsert d c.customer_id c.full_name) kv h with h1 | ⟨c2, hc2, h2⟩
      · rcases mem_dictInsert _ _ _ _ h1 with h2 | h2
        · subst h2
          exact Or.inr ⟨c, List.mem_cons_self c t, rfl, rfl, hm⟩
        · exact Or.inl h2
      · exact Or.inr ⟨c2, List.mem_cons_of_mem c hc2, h2⟩
    · rw [if_neg hm] at h
      rcases ih d kv h with h1 | ⟨c2, hc2, h2⟩
      · exact Or.inl h1
      · exact Or.inr ⟨c2, List.mem_cons_of_mem c hc2, h2⟩

/-- Soundness of the matching dict: every entry is the id and full name
of some customer whose normalised name contains the query. -/
theorem buildMatchingDict_mem (cs : List Customer) (nm : String)
    (kv : String × String) (hkv : kv ∈ buildMatchingDict cs nm) :
    ∃ c ∈ cs, c.customer_id = kv.1 ∧ c.full_name = kv.2 ∧
      strContainsSub (strNorm c.full_name) nm = true := by
  unfold buildMatchingDict at hkv
  rcases buildMatchingDict_go_mem nm cs [] kv hkv with h1 | h2
  · cases h1
  · exact h2

/-- With pairwise distinct customer ids no overwrite happens and the
fold is a plain filter-and-map. -/
theorem buildMatchingDict_go_eq (nm : String) (cs : List Customer) :
    ∀ (d : List (String × String)),
    (∀ c ∈ cs, ∀ kv ∈ d, kv.1 ≠ c.customer_id) →
    (cs.map Customer.customer_id).Nodup →
    cs.foldl (fun d c =>
      if strContainsSub (strNorm c.full_name) nm then
        dictInsert d c.customer_id c.full_name
      else d) d =
    d ++ (cs.filter (fun c => strContainsSub (strNorm c.full_name) nm)).map
      (fun c => (c.customer_id, c.full_name)) := by
  induction cs with
  | nil => intro d _ _; simp
  | cons c t ih =>
    intro d hdisj hnd
    have hnd2 : (c.customer_id ∉ t.map Customer.customer_id) ∧
        (t.map Customer.customer_id).Nodup := by
      simpa using hnd
    rw [List.foldl_cons]
    by_cases hm : strContainsSub (strNorm c.full_name) nm = true
    · have hfresh : ∀ kv ∈ d, kv.1 ≠ c.customer_id :=
        fun kv hkv => hdisj c (List.mem_cons_self c t) kv hkv
      have hdisj2 : ∀ c2 ∈ t, ∀ kv ∈ d ++ [(c.customer_id, c.full_name)],
          kv.1 ≠ c2.customer_id := by
        intro c2 hc2 kv hkv
        rcases List.mem_append.mp hkv with h1 | h1
        · exact hdisj c2 (List.mem_cons_of_mem c hc2) kv h1
        · have he : kv = (c.customer_id, c.full_name) := by simpa using h1
          subst he
          intro heq
          have heq2 : c.customer_id = c2.customer_id := heq
          exact hnd2.1 (heq2 ▸ List.mem_map_of_mem Customer.customer_id hc2)
      rw [if_pos hm, dictInsert_of_fresh d _ _ hfresh, ih _ hdisj2 hnd2.2]
      simp [List.filter_cons, hm, List.append_assoc]
    · rw [if_neg hm,
        ih d (fun c2 hc2 => hdisj c2 (List.mem_cons_of_mem c hc2)) hnd2.2]
      simp [List.filter_cons, hm]

/-- Lookup in a filtered id-to-name map built from customers with
distinct ids finds the given matching customer. -/
theorem dictLookup_filter_map (pred : Customer → Bool) (cs : List Customer)
    (hnd : (cs.map Customer.customer_id).Nodup) (c : Customer) (hc : c ∈ cs)
    (hm : pred c = true) :
    dictLookup ((cs.filter pred).map (fun c => (c.customer_id, c.full_name)))
      c.customer_id = some c.full_name := by
  induction cs with
  | nil => cases hc
  | cons a t ih =>
    have hnd2 : (a.customer_id ∉ t.map Customer.customer_id) ∧
        (t.map Customer.customer_id).Nodup := by
      simpa using hnd
    rcases List.mem_cons.mp hc with rfl | hct
    · rw [List.filter_cons_of_pos hm, List.map_cons, dictLookup_cons,
        if_pos (by simp)]
    · have hne : a.customer_id ≠ c.customer_id := fun heq =>
        hnd2.1 (heq ▸ List.mem_map_of_mem Customer.customer_id hct)
      by_cases hpa : pred a = true
      · rw [List.filter_cons_of_pos hpa, List.map_cons, dictLookup_cons,
          if_neg (by simpa using hne)]
        exact ih hnd2.2 hct
      · rw [List.filter_cons_of_neg (by simpa using hpa)]
        exact ih hnd2.2 hct

/-- Completeness of the matching dict under distinct customer ids:
every matching customer is found by lookup on its id. -/
theorem dictLookup_buildMatchingDict (cs : List Customer) (nm : String)
    (hnd : (cs.map Customer.customer_id).Nodup) (c : Customer) (hc : c ∈ cs)
    (hm : strContainsSub (strNorm c.full_name) nm = true) :
    dictLookup (buildMatchingDict cs nm) c.customer_id = some c.full_name := by
  unfold buildMatchingDict
  rw [buildMatchingDict_go_eq nm cs [] (by simp) hnd, List.nil_append]
  exact dictLookup_filter_map _ cs hnd c hc hm

/-- A successful lookup exhibits a dict entry. -/
theorem dictLookup_mem (d : List (String × String)) (k v : String)
    (h : dictLookup d k = some v) : ∃ kv ∈ d, kv.1 = k ∧ kv.2 = v := by
  unfold dictLookup at h
  cases e : List.find? (fun kv => kv.1 == k) d with
  | none => rw [e] at h; cases h
  | some kv =>
    rw [e] at h
    injection h with h
    exact ⟨kv, List.mem_of_find?_eq_some e, by simpa using List.find?_some e, h⟩

/-- Accumulator-generalised form of the result-collection loop. -/
theorem searchResults_go (dict : List (String × String))
    (rs : List Reservation) (acc : List Payload) :
    rs.foldl (fun acc r =>
      match dictLookup dict r.customer_id with
      | none => acc
      | some nm => acc ++ [r.to_dict ++ [("customer_name", Value.str nm)]]) acc =
    acc ++ rs.filterMap (fun r =>
      (dictLookup dict r.customer_id).map (fun nm =>
        r.to_dict ++ [("customer_name", Value.str nm)])) := by
  induction rs generalizing acc with
  | nil => simp
  | cons r t ih =>
    rw [List.foldl_cons]
    cases e : dictLookup dict r.customer_id with
    | none => simp [e, List.filterMap_cons, ih]
    | some nm => simp [e, List.filterMap_cons, ih]

/-- The result-collection loop is a `filterMap` over the reservations. -/
theorem searchResults_eq (dict : List (String × String))
    (rs : List Reservation) :
    searchResults dict rs = rs.filterMap (fun r =>
      (dictLookup dict r.customer_id).map (fun nm =>
        r.to_dict ++ [("customer_name", Value.str nm)])) := by
  unfold searchResults
  rw [searchResults_go, List.nil_append]

/-- A reservation whose customer id the dict maps to `nm` contributes
its annotated payload to the results. -/
theorem mem_searchResults (dict : List (String × String))
    (rs : List Reservation) (r : Reservation) (nm : String)
    (hl : dictLookup dict r.customer_id = some nm) (hr : r ∈ rs) :
    (r.to_dict ++ [("customer_name", Value.str nm)]) ∈ searchResults dict rs := by
  rw [searchResults_eq]
  exact List.mem_filterMap.mpr ⟨r, hr, by rw [hl]; rfl⟩

end HotelSystem

/-- C8: with a non-empty normalised query the search returns, for every
reservation whose customer (under distinct customer ids) has a
normalised full name containing the normalised query, that reservation
annotated with the customer full name (completeness); everything
returned arises that way (soundness); an empty query yields no results
and a diagnostic; and a diagnostic is emitted exactly when the result
list is empty, so the three failure outcomes are distinguishable from a
non-empty result. -/
theorem C8_search_by_name (s : SysState) (q : String) :
    (HotelSystem.strNorm q = "" →
      (HotelSystem.search_reservations_by_name s q).1 = [] ∧
      (HotelSystem.search_reservations_by_name s q).2 ≠ []) ∧
    ((HotelSystem.search_reservations_by_name s q).2 ≠ [] ↔
      (HotelSystem.search_reservations_by_name s q).1 = []) ∧
    (HotelSystem.strNorm q ≠ "" → (s.customers.map Customer.customer_id).Nodup →
      ∀ r ∈ s.reservations, ∀ c ∈ s.customers, c.customer_id = r.customer_id →
        strContainsSub (HotelSystem.strNorm c.full_name) (HotelSystem.strNorm q) = true →
        (r.to_dict ++ [("customer_name", Value.str c.full_name)]) ∈
          (HotelSystem.search_reservations_by_name s q).1) ∧
    (∀ x ∈ (HotelSystem.search_reservations_by_name s q).1,
      ∃ r ∈ s.reservations, ∃ c ∈ s.customers, c.customer_id = r.customer_id ∧
        strContainsSub (HotelSystem.strNorm c.full_name) (HotelSystem.strNorm q) = true ∧
        x = r.to_dict ++ [("customer_name", Value.str c.full_name)]) := by
  unfold HotelSystem.search_reservations_by_name
  by_cases hq : (HotelSystem.strNorm q == "") = true
  · rw [if_pos hq]
    refine ⟨fun _ => ⟨rfl, by simp⟩, iff_of_true (by simp) rfl, ?_, by simp⟩
    intro hne
    exact absurd (by simpa using hq) hne
  · rw [if_neg hq]
    dsimp only
    have hmem : ∀ (hnd : (s.customers.map Customer.customer_id).Nodup),
        ∀ r ∈ s.reservations, ∀ c ∈ s.customers, c.customer_id = r.customer_id →
        strContainsSub (HotelSystem.strNorm c.full_name) (HotelSystem.strNorm q) = true →
        (r.to_dict ++ [("customer_name", Value.str c.full_name)]) ∈
          HotelSystem.searchResults
            (HotelSystem.buildMatchingDict s.customers (HotelSystem.strNorm q))
            s.reservations := by
      intro hnd r hr c hc hcr hm
      refine HotelSystem.mem_searchResults _ _ r c.full_name ?_ hr
      rw [← hcr]
      exact HotelSystem.dictLookup_buildMatchingDict s.customers (HotelSystem.strNorm q)
        hnd c hc hm
    have hsound : ∀ x ∈ HotelSystem.searchResults
        (HotelSystem.buildMatchingDict s.customers (HotelSystem.strNorm q)) s.reservations,
        ∃ r ∈ s.reservations, ∃ c ∈ s.customers,
          c.customer_id = r.customer_id ∧
          strContainsSub (HotelSystem.strNorm c.full_name) (HotelSystem.strNorm q) = true ∧
          x = r.to_dict ++ [("customer_name", Value.str c.full_name)] := by
      intro x hx
      rw [HotelSystem.searchResults_eq] at hx
      rcases List.mem_filterMap.mp hx with ⟨r, hr, he⟩
      cases e : HotelSystem.dictLookup
          (HotelSystem.buildMatchingDict s.customers (HotelSystem.strNorm q))
          r.customer_id with
      | none => rw [e] at he; cases he
      | some nm =>
        rw [e] at he
        injection he with he
        rcases HotelSystem.dictLookup_mem _ _ _ e with ⟨kv, hkv, hk1, hk2⟩
        rcases HotelSystem.buildMatchingDict_mem _ _ _ hkv with
          ⟨c, hc, hc1, hc2, hc3⟩
        refine ⟨r, hr, c, hc, by rw [hc1, hk1], hc3, ?_⟩
        rw [← he, ← hk2, ← hc2]
    by_cases hd : (HotelSystem.buildMatchingDict s.customers
        (HotelSystem.strNorm q)).isEmpty = true
    · rw [if_pos hd]
      refine ⟨fun h => absurd h (by simpa using hq),
        iff_of_true (by simp) rfl, ?_, by simp⟩
      intro hne hnd r hr c hc hcr hm
      have hl := HotelSystem.dictLookup_buildMatchingDict s.customers
        (HotelSystem.strNorm q) hnd c hc hm
      rw [List.isEmpty_iff.mp hd] at hl
      simp [HotelSystem.dictLookup] at hl
    · rw [if_neg hd]
      by_cases hr : (HotelSystem.searchResults
          (HotelSystem.buildMatchingDict s.customers (HotelSystem.strNorm q))
          s.reservations).isEmpty = true
      · rw [if_pos hr]
        exact ⟨fun h => absurd h (by simpa using hq),
          iff_of_true (by simp) (List.isEmpty_iff.mp hr),
          fun hne hnd => hmem hnd, hsound⟩
      · rw [if_neg hr]
        refine ⟨fun h => absurd h (by simpa using hq),
          iff_of_false (by simp) (by simpa [List.isEmpty_iff] using hr),
          fun hne hnd => hmem hnd, hsound⟩

/-- Witness for C8: query `rob` matches customer `Roberto Martinez`
case-insensitively and his reservation is returned annotated with his
full name. -/
theorem C8_search_by_name_witness :
    (Reservation.to_dict ⟨"R1", "C1", "H1", 2, "active"⟩ ++
      [("customer_name", Value.str "Roberto Martinez")]) ∈
      (HotelSystem.search_reservations_by_name
        ⟨[], [⟨"C1", "Roberto Martinez", "rob@x.com", "55"⟩],
         [⟨"R1", "C1", "H1", 2, "active"⟩]⟩ "rob").1 :=
  (C8_search_by_name
    ⟨[], [⟨"C1", "Roberto Martinez", "rob@x.com", "55"⟩],
     [⟨"R1", "C1", "H1", 2, "active"⟩]⟩ "rob").2.2.1
    (by decide) (by decide)
    ⟨"R1", "C1", "H1", 2, "active"⟩ (by decide)
    ⟨"C1", "Roberto Martinez", "rob@x.com", "55"⟩ (by decide)
    rfl (by decide)
